import Mathlib

/-!
Verification development for the AWSCost usage/cost aggregation engine
(src/main.py, src/config.py).

Modelling conventions:
* Python floats that hold monetary amounts or byte ratios are modelled as
  exact rationals (the spec describes amounts as decimals); Python
  round(x, n) is modelled as round-half-to-even at the n-th decimal.
* Python str(float) for a value produced by round(x, 2) is modelled by
  the shortest decimal rendering with at least one fractional digit.
* Python dicts are modelled as association lists in insertion order:
  assignment to a present key updates it in place, to an absent key
  appends at the end.
* datetime values are modelled at day granularity; comparison uses a
  numeric key that agrees with chronological order on parsed dates.
* A Python TypeError / AssertionError / ValueError raised by
  cost_explorer is modelled as an explicit error value.
-/

/-- Round-half-to-even of a rational to the nearest integer. -/
def rhalfEven (q : ℚ) : ℤ :=
  let f : ℤ := q.num.fdiv (q.den : ℤ)
  let r : ℚ := q - (f : ℚ)
  if r < 1/2 then f
  else if 1/2 < r then f + 1
  else if f % 2 = 0 then f else f + 1

/-- Python round(q, digits): round half to even at the given decimal place. -/
def roundTo (digits : ℕ) (q : ℚ) : ℚ :=
  (rhalfEven (q * 10 ^ digits) : ℚ) / 10 ^ digits

/-- The unit table of size_converter (src/main.py line 34). -/
def size_name : List String := ["B", "KB", "MB", "GB", "TB", "PB", "EB", "ZB", "YB"]

/-- Decimal string of a rational whose value has at most two fractional
digits: models Python str() applied to the float round(x, 2). -/
def floatRepr2 (q : ℚ) : String :=
  if q.den = 1 then toString q.num ++ ".0"
  else
    let m := (q * 100).num
    let sign := if m < 0 then "-" else ""
    let ip := m.natAbs / 100
    let fp := m.natAbs % 100
    if fp % 10 = 0 then sign ++ toString ip ++ "." ++ toString (fp / 10)
    else if fp < 10 then sign ++ toString ip ++ ".0" ++ toString fp
    else sign ++ toString ip ++ "." ++ toString fp

/-- Fuel-bounded base-b floor logarithm (structural, kernel-reducible). -/
def logAux (b : ℕ) : ℕ → ℕ → ℕ
  | 0, _ => 0
  | fuel + 1, n => if n < b then 0 else logAux b fuel (n / b) + 1

/-- floor(log_1024 n): the unit index chosen by size_converter
(src/main.py line 35). Proved equal to Nat.log 1024 below. -/
def log1024 (n : ℕ) : ℕ := logAux 1024 n n

theorem logAux_eq_log {fuel n : ℕ} (h : n ≤ fuel) : logAux 1024 fuel n = Nat.log 1024 n := by
  induction fuel generalizing n with
  | zero =>
    have : n = 0 := Nat.le_zero.mp h
    subst this
    simp [logAux]
  | succ fuel ih =>
    by_cases hn : n < 1024
    · simp [logAux, hn, Nat.log_of_lt hn]
    · have hb : (1024 : ℕ) ≤ n := Nat.le_of_not_lt hn
      have hpos : 0 < n := lt_of_lt_of_le (by norm_num) hb
      have hdiv : n / 1024 ≤ fuel := by
        have : n / 1024 < n := Nat.div_lt_self hpos (by norm_num)
        omega
      have hlogpos : 0 < Nat.log 1024 n := Nat.log_pos (by norm_num) hb
      have hrec := Nat.log_div_base 1024 n
      simp only [logAux, if_neg hn, ih hdiv, hrec]
      omega

theorem log1024_eq (n : ℕ) : log1024 n = Nat.log 1024 n := logAux_eq_log le_rfl

/-- size_converter from src/main.py lines 30-36. -/
def size_converter (byte_size : ℤ) : String :=
  if byte_size ≤ 0 then "0 B"
  else
    let index := log1024 byte_size.toNat
    floatRepr2 (roundTo 2 ((byte_size : ℚ) / 1024 ^ index)) ++ " " ++ size_name.getD index ""

/-- Error raised when the total byte count falls in the undefined pricing gap. -/
inductive PricingError where
  | UnsupportedPricingTier
deriving DecidableEq

/-- Modelled from the spec: the TieredCostModel price table (spec section 4.2)
is absent from src/; src/main.py contains no pricing code. Ordered bands:
up to and including 50e12 bytes gives 0.023, up to and including 450e12
gives 0.022, at or above 500e12 gives 0.021, and the gap strictly between
450e12 and 500e12 has no price. -/
def price_per_gb (total_bytes : ℤ) : Option ℚ :=
  if total_bytes ≤ 50000000000000 then some (23/1000)
  else if total_bytes ≤ 450000000000000 then some (22/1000)
  else if 500000000000000 ≤ total_bytes then some (21/1000)
  else none

/-- Modelled from the spec: TieredCostModel.estimate (spec section 4.2),
absent from src/. Converts the per-GB price to per-byte by dividing by
1024 cubed, multiplies by the byte count, and rounds to 6 fractional
digits; an undefined band signals UnsupportedPricingTier. -/
def estimate (total_bytes : ℤ) : Except PricingError ℚ :=
  match price_per_gb total_bytes with
  | some p => Except.ok (roundTo 6 (p / 1024 ^ 3 * (total_bytes : ℚ)))
  | none => Except.error PricingError.UnsupportedPricingTier

/-- Association list lookup: Python dict .get, in insertion order. -/
def dictGet {α : Type} : List (String × α) → String → Option α
  | [], _ => none
  | p :: rest, k => if p.1 = k then some p.2 else dictGet rest k

/-- Association list assignment: Python dict item assignment; updates a
present key in place and appends an absent key at the end. -/
def dictSet {α : Type} : List (String × α) → String → α → List (String × α)
  | [], k, v => [(k, v)]
  | p :: rest, k, v => if p.1 = k then (k, v) :: rest else p :: dictSet rest k v

/-- One bucket-listing page: none models a page without a Contents key. -/
def page_stats (acc : ℕ × ℕ) (page : Option (List ℕ)) : ℕ × ℕ :=
  match page with
  | some objs => objs.foldl (fun st sz => (st.1 + sz, st.2 + 1)) acc
  | none => acc

/-- The inner pagination loop of s3_usage (src/main.py lines 134-141):
total_bucket_size and number_of_ojects accumulated over all pages. -/
def bucket_stats (pages : List (Option (List ℕ))) : ℕ × ℕ :=
  pages.foldl page_stats (0, 0)

/-- The per-bucket record stored by s3_usage (objects count and
human-readable size). -/
structure BucketVal where
  objects : ℕ
  size : String
deriving DecidableEq

/-- The data produced by s3_usage (src/main.py lines 127-151): the
bucket_values dict, the grand total size and its human-readable form. -/
structure S3Report where
  bucket_values : List (String × BucketVal)
  total_size : ℕ
  total_size_human : String
deriving DecidableEq

/-- One iteration of the bucket loop of s3_usage (src/main.py lines 132-147). -/
def s3_step (st : List (String × BucketVal) × ℕ) (bucket : String × List (Option (List ℕ))) :
    List (String × BucketVal) × ℕ :=
  let stats := bucket_stats bucket.2
  (dictSet st.1 bucket.1 ⟨stats.2, size_converter (stats.1 : ℤ)⟩, st.2 + stats.1)

/-- s3_usage from src/main.py lines 127-151, with the external listing
collaborators supplied as data: each bucket comes with its pages of
object sizes. -/
def s3_usage (buckets : List (String × List (Option (List ℕ)))) : S3Report :=
  let res := buckets.foldl s3_step ([], 0)
  ⟨res.1, res.2, size_converter (res.2 : ℤ)⟩

/-- UsageReport of spec section 3: the S3Report data extended with the
estimated monthly cost. -/
structure UsageReport where
  bucket_values : List (String × BucketVal)
  total_size : ℕ
  total_size_human : String
  estimated_monthly_cost : Except PricingError ℚ

/-- Modelled from the spec: the estimated_monthly_cost finalization of the
usage aggregation (spec sections 3 and 4.3) is absent from src/
(src/main.py s3_usage stops at the size totals); the cost figure is the
tiered estimate applied to the grand total. -/
def usage_report (buckets : List (String × List (Option (List ℕ)))) : UsageReport :=
  let r := s3_usage buckets
  ⟨r.bucket_values, r.total_size, r.total_size_human, estimate (r.total_size : ℤ)⟩

/-- Calendar date, modelling the date part of a Python datetime. -/
structure PyDate where
  year : ℕ
  month : ℕ
  day : ℕ
deriving DecidableEq

/-- Numeric key giving chronological order on dates (months and days of
parsed dates are below 100). -/
def dateKey (d : PyDate) : ℕ := d.year * 10000 + d.month * 100 + d.day

/-- The distinct failure modes of cost_explorer date handling:
typeError models the Python TypeError from subtracting a timedelta from
a str or None; the others model strptime failure and the two asserts. -/
inductive CEErr where
  | typeError
  | invalidDateFormat
  | futureStartDate
  | nonPositiveRange
deriving DecidableEq

/-- Splits a character list on the dash character. -/
def splitDashAux : List Char → List Char → List (List Char)
  | [], cur => [cur.reverse]
  | c :: rest, cur =>
    if c = '-' then cur.reverse :: splitDashAux rest []
    else splitDashAux rest (c :: cur)

/-- Numeric value of a nonempty all-digit character list. -/
def digitsVal (cs : List Char) : Option ℕ :=
  if cs.isEmpty then none
  else if cs.all Char.isDigit then some (cs.foldl (fun a c => a * 10 + (c.toNat - 48)) 0)
  else none

/-- Python calendar leap-year rule. -/
def isLeap (y : ℕ) : Bool :=
  if y % 400 = 0 then true
  else if y % 100 = 0 then false
  else if y % 4 = 0 then true
  else false

/-- Number of days in the given month. -/
def daysInMonth (y m : ℕ) : ℕ :=
  if m = 2 then (if isLeap y then 29 else 28)
  else if m = 4 ∨ m = 6 ∨ m = 9 ∨ m = 11 then 30
  else 31

/-- datetime.strptime with format Y-m-d: three dash-separated numeric
fields with a valid month and day. -/
def parseDate (s : String) : Option PyDate :=
  match splitDashAux s.toList [] with
  | [ys, ms, ds] =>
    match digitsVal ys, digitsVal ms, digitsVal ds with
    | some y, some m, some d =>
      if 1 ≤ m ∧ m ≤ 12 ∧ 1 ≤ d ∧ d ≤ daysInMonth y m then some ⟨y, m, d⟩ else none
    | _, _, _ => none
  | _ => none

/-- Python truthiness of an optional string: None and the empty string
are falsy. -/
def truthy : Option String → Bool
  | none => false
  | some s => !s.isEmpty

/-- The date resolution and validation of cost_explorer
(src/main.py lines 66-80), exactly as written: when start_date is falsy
the code evaluates end_date - timedelta(days=30) on the still-raw
end_date (a str or None), which raises TypeError; otherwise start_date
is parsed, then end_date is parsed or defaulted to now, then the two
asserts run in order. -/
def cost_explorer_dates (start_date end_date : Option String) (now : PyDate) :
    Except CEErr (PyDate × PyDate) :=
  match (if truthy start_date then
           match parseDate (start_date.getD "") with
           | some d => Except.ok d
           | none => Except.error CEErr.invalidDateFormat
         else Except.error CEErr.typeError) with
  | Except.error e => Except.error e
  | Except.ok s =>
    match (if truthy end_date then
             match parseDate (end_date.getD "") with
             | some d => Except.ok d
             | none => Except.error CEErr.invalidDateFormat
           else Except.ok now) with
    | Except.error e => Except.error e
    | Except.ok e =>
      if dateKey s ≤ dateKey now then
        if dateKey s < dateKey e then Except.ok (s, e)
        else Except.error CEErr.nonPositiveRange
      else Except.error CEErr.futureStartDate

/-- The calendar predecessor of a date. -/
def prevDay (d : PyDate) : PyDate :=
  if 1 < d.day then ⟨d.year, d.month, d.day - 1⟩
  else if 1 < d.month then ⟨d.year, d.month - 1, daysInMonth d.year (d.month - 1)⟩
  else ⟨d.year - 1, 12, 31⟩

/-- Subtracting a timedelta of n days from a date. -/
def subDays (d : PyDate) : ℕ → PyDate
  | 0 => d
  | n + 1 => prevDay (subDays d n)

/-- Modelled from the spec: resolve_range (spec sections 4.4 and 9), the
intended date resolution that src/main.py fails to implement: end
defaults to now, start defaults to the resolved end minus 30 days,
supplied values are parsed from Y-m-d, then the two validations run. -/
def resolve_range (start_date end_date : Option String) (now : PyDate) :
    Except CEErr (PyDate × PyDate) :=
  match (match end_date with
         | none => Except.ok now
         | some str =>
           match parseDate str with
           | some d => Except.ok d
           | none => Except.error CEErr.invalidDateFormat) with
  | Except.error e => Except.error e
  | Except.ok e =>
    match (match start_date with
           | none => Except.ok (subDays e 30)
           | some str =>
             match parseDate str with
             | some d => Except.ok d
             | none => Except.error CEErr.invalidDateFormat) with
    | Except.error e2 => Except.error e2
    | Except.ok s =>
      if dateKey s ≤ dateKey now then
        if dateKey s < dateKey e then Except.ok (s, e)
        else Except.error CEErr.nonPositiveRange
      else Except.error CEErr.futureStartDate

/-- Total mode of cost_explorer (src/main.py lines 86-97): the running
total over the returned time buckets, rounded to 2 fractional digits for
the report. -/
def cost_explorer_total (resultsByTime : List ℚ) : ℚ :=
  roundTo 2 (resultsByTime.foldl (fun total amount => total + amount) 0)

/-- One group of one time bucket in breakdown mode
(src/main.py lines 107-115): skip a zero amount, add to a truthy
existing entry, otherwise assign. -/
def breakdown_step (d : List (String × ℚ)) (g : String × ℚ) : List (String × ℚ) :=
  if g.2 = 0 then d
  else if (dictGet d g.1).getD 0 ≠ 0 then dictSet d g.1 ((dictGet d g.1).getD 0 + g.2)
  else dictSet d g.1 g.2

/-- The cost_breakdown dict after the nested reduction loops of
src/main.py lines 105-115. -/
def cost_breakdown (resultsByTime : List (List (String × ℚ))) : List (String × ℚ) :=
  resultsByTime.foldl (fun d result => result.foldl breakdown_step d) []

/-- The printed cost cell for one category (src/main.py lines 117-124):
a rounds-to-zero sum keeps its raw value, an integral sum becomes a bare
int, anything else a 4-fractional-digit string. -/
inductive CostCell where
  | zeroRaw (rounded : ℚ) (raw : ℚ)
  | intCost (n : ℤ)
  | strCost (text : String)
deriving DecidableEq

/-- Four-digit zero-padded decimal string of n below 10000. -/
def pad4 (n : ℕ) : String :=
  String.mk [Nat.digitChar (n / 1000 % 10), Nat.digitChar (n / 100 % 10),
    Nat.digitChar (n / 10 % 10), Nat.digitChar (n % 10)]

/-- Python format .4f of a rational with at most 4 fractional digits. -/
def fixed4Str (q : ℚ) : String :=
  let m := (q * 10000).num
  (if m < 0 then "-" else "") ++ toString (m.natAbs / 10000) ++ "." ++ pad4 (m.natAbs % 10000)

/-- The rendering branch of src/main.py lines 118-124 for one
accumulated value. -/
def render_cost (value : ℚ) : CostCell :=
  let rounded := roundTo 4 value
  if rounded = 0 then CostCell.zeroRaw rounded value
  else if rounded.den = 1 then CostCell.intCost rounded.num
  else CostCell.strCost (fixed4Str rounded)

/-- Breakdown mode output: each accumulated category with its rendered
cost cell, in dict order. -/
def breakdown_render (resultsByTime : List (List (String × ℚ))) : List (String × CostCell) :=
  (cost_breakdown resultsByTime).map (fun p => (p.1, render_cost p.2))

/-- Specification-side accumulation step: plain addition into the entry
(no truthiness test on the stored value). -/
def pureStep (d : List (String × ℚ)) (g : String × ℚ) : List (String × ℚ) :=
  if g.2 = 0 then d
  else
    match dictGet d g.1 with
    | some v => dictSet d g.1 (v + g.2)
    | none => dictSet d g.1 g.2

/-- The non-zero amounts contributed to category s, in stream order. -/
def nonzeroContribs (s : String) : List (String × ℚ) → List ℚ
  | [] => []
  | g :: l => if g.1 = s ∧ g.2 ≠ 0 then g.2 :: nonzeroContribs s l else nonzeroContribs s l

/-- Appends a key not yet present. -/
def insertAbsent (acc : List String) (k : String) : List String :=
  if k ∈ acc then acc else acc ++ [k]

/-- Records the category of one non-zero contribution in first-seen order. -/
def keysStep (acc : List String) (g : String × ℚ) : List String :=
  if g.2 = 0 then acc else insertAbsent acc g.1

/-- The categories with a non-zero contribution, in first-seen order. -/
def firstSeenNonzero (l : List (String × ℚ)) : List String :=
  l.foldl keysStep []

theorem dictGet_dictSet_self {α : Type} (d : List (String × α)) (k : String) (v : α) :
    dictGet (dictSet d k v) k = some v := by
  induction d with
  | nil => simp [dictSet, dictGet]
  | cons p rest ih =>
    by_cases h : p.1 = k
    · simp [dictSet, h, dictGet]
    · simp [dictSet, h, dictGet, ih]

theorem dictGet_dictSet_ne {α : Type} (d : List (String × α)) (k s : String) (v : α)
    (h : k ≠ s) : dictGet (dictSet d k v) s = dictGet d s := by
  induction d with
  | nil => simp [dictSet, dictGet, h]
  | cons p rest ih =>
    by_cases hp : p.1 = k
    · simp [dictSet, hp, dictGet, h]
    · simp only [dictSet, if_neg hp, dictGet]
      by_cases hs : p.1 = s
      · simp [hs]
      · simp [hs, ih]

theorem dictSet_of_absent {α : Type} (d : List (String × α)) (k : String) (v : α)
    (h : dictGet d k = none) : dictSet d k v = d ++ [(k, v)] := by
  induction d with
  | nil => simp [dictSet]
  | cons p rest ih =>
    by_cases hp : p.1 = k
    · simp [dictGet, hp] at h
    · simp only [dictGet, if_neg hp] at h
      simp [dictSet, hp, ih h]

theorem map_fst_dictSet_present {α : Type} (d : List (String × α)) (k : String) (v : α)
    (h : (dictGet d k).isSome) : (dictSet d k v).map Prod.fst = d.map Prod.fst := by
  induction d with
  | nil => simp [dictGet] at h
  | cons p rest ih =>
    by_cases hp : p.1 = k
    · simp [dictSet, hp]
    · simp only [dictGet, if_neg hp] at h
      simp [dictSet, hp, ih h]

theorem mem_map_fst_iff_isSome {α : Type} (d : List (String × α)) (k : String) :
    k ∈ d.map Prod.fst ↔ (dictGet d k).isSome := by
  induction d with
  | nil => simp [dictGet]
  | cons p rest ih =>
    by_cases hp : p.1 = k
    · simp [dictGet, hp]
    · simp [dictGet, hp, ih, Ne.symm hp]

theorem breakdown_step_eq_pureStep : breakdown_step = pureStep := by
  funext d g
  unfold breakdown_step pureStep
  by_cases h0 : g.2 = 0
  · simp [h0]
  · simp only [if_neg h0]
    cases hget : dictGet d g.1 with
    | none => simp [hget]
    | some v =>
      by_cases hv : v = 0
      · simp [hget, hv]
      · simp [hget, hv]

theorem pureStep_foldl_get (l : List (String × ℚ)) :
    ∀ (d : List (String × ℚ)) (s : String),
      dictGet (List.foldl pureStep d l) s =
        match dictGet d s with
        | some v => some (v + (nonzeroContribs s l).sum)
        | none =>
          if nonzeroContribs s l = [] then none else some (nonzeroContribs s l).sum := by
  induction l with
  | nil =>
    intro d s
    cases hget : dictGet d s <;> simp [nonzeroContribs, hget]
  | cons g l ih =>
    intro d s
    by_cases h0 : g.2 = 0
    · have hstep : pureStep d g = d := by simp [pureStep, h0]
      have hcontribs : nonzeroContribs s (g :: l) = nonzeroContribs s l := by
        simp [nonzeroContribs, h0]
      simp only [List.foldl_cons, hstep, hcontribs, ih]
    · by_cases hk : g.1 = s
      · have hcontribs : nonzeroContribs s (g :: l) = g.2 :: nonzeroContribs s l := by
          simp [nonzeroContribs, hk, h0]
        subst hk
        cases hget : dictGet d g.1 with
        | none =>
          have hstep : pureStep d g = dictSet d g.1 g.2 := by simp [pureStep, h0, hget]
          have hget2 : dictGet (pureStep d g) g.1 = some g.2 := by
            rw [hstep, dictGet_dictSet_self]
          simp only [List.foldl_cons, ih, hget2, hget, hcontribs, List.sum_cons]
          rw [if_neg (List.cons_ne_nil _ _)]
        | some v =>
          have hstep : pureStep d g = dictSet d g.1 (v + g.2) := by simp [pureStep, h0, hget]
          have hget2 : dictGet (pureStep d g) g.1 = some (v + g.2) := by
            rw [hstep, dictGet_dictSet_self]
          simp only [List.foldl_cons, ih, hget2, hget, hcontribs, List.sum_cons]
          rw [add_assoc]
      · have hcontribs : nonzeroContribs s (g :: l) = nonzeroContribs s l := by
          simp [nonzeroContribs, hk]
        have hget2 : dictGet (pureStep d g) s = dictGet d s := by
          unfold pureStep
          simp only [if_neg h0]
          cases hget : dictGet d g.1 <;> simp [dictGet_dictSet_ne _ _ _ _ hk]
        simp only [List.foldl_cons, ih, hget2, hcontribs]

theorem pureStep_foldl_keys (l : List (String × ℚ)) :
    ∀ d : List (String × ℚ),
      (List.foldl pureStep d l).map Prod.fst = List.foldl keysStep (d.map Prod.fst) l := by
  induction l with
  | nil => intro d; rfl
  | cons g l ih =>
    intro d
    by_cases h0 : g.2 = 0
    · have hstep : pureStep d g = d := by simp [pureStep, h0]
      have hkey : keysStep (d.map Prod.fst) g = d.map Prod.fst := by simp [keysStep, h0]
      simp only [List.foldl_cons, hstep, hkey, ih]
    · cases hget : dictGet d g.1 with
      | none =>
        have hstep : pureStep d g = d ++ [(g.1, g.2)] := by
          simp [pureStep, h0, hget, dictSet_of_absent d g.1 g.2 hget]
        have hmem : g.1 ∉ d.map Prod.fst := by
          rw [mem_map_fst_iff_isSome, hget]
          simp
        have hkey : keysStep (d.map Prod.fst) g = d.map Prod.fst ++ [g.1] := by
          simp [keysStep, h0, insertAbsent, hmem]
        simp only [List.foldl_cons, hstep, hkey, ih, List.map_append, List.map_cons,
          List.map_nil]
      | some v =>
        have hsome : (dictGet d g.1).isSome := by rw [hget]; rfl
        have hmem : g.1 ∈ d.map Prod.fst := (mem_map_fst_iff_isSome d g.1).mpr hsome
        have hstep : (pureStep d g).map Prod.fst = d.map Prod.fst := by
          unfold pureStep
          simp only [if_neg h0, hget]
          exact map_fst_dictSet_present d g.1 (v + g.2) hsome
        have hkey : keysStep (d.map Prod.fst) g = d.map Prod.fst := by
          simp [keysStep, h0, insertAbsent, hmem]
        simp only [List.foldl_cons, ih, hstep, hkey]

theorem foldl_breakdown_join (resultsByTime : List (List (String × ℚ))) :
    ∀ d : List (String × ℚ),
      resultsByTime.foldl (fun d result => result.foldl breakdown_step d) d =
        (resultsByTime.flatten).foldl breakdown_step d := by
  induction resultsByTime with
  | nil => intro d; rfl
  | cons r rest ih =>
    intro d
    simp only [List.foldl_cons, List.flatten_cons, List.foldl_append, ih]

theorem foldl_add_eq_sum (l : List ℚ) :
    ∀ a : ℚ, l.foldl (fun total amount => total + amount) a = a + l.sum := by
  induction l with
  | nil => intro a; simp
  | cons x l ih => intro a; simp only [List.foldl_cons, List.sum_cons, ih, add_assoc]

theorem s3_total_aux (buckets : List (String × List (Option (List ℕ)))) :
    ∀ (d : List (String × BucketVal)) (t : ℕ),
      (buckets.foldl s3_step (d, t)).2 =
        t + (buckets.map (fun b => (bucket_stats b.2).1)).sum := by
  induction buckets with
  | nil => intro d t; simp
  | cons b bs ih =>
    intro d t
    simp only [List.foldl_cons, List.map_cons, List.sum_cons]
    have hstep : bs.foldl s3_step (s3_step (d, t) b) =
        bs.foldl s3_step
          (dictSet d b.1 ⟨(bucket_stats b.2).2, size_converter ((bucket_stats b.2).1 : ℤ)⟩,
            t + (bucket_stats b.2).1) := rfl
    rw [hstep, ih]
    omega

/-- Claim C1: for every run of the usage aggregation, the resulting
UsageReport carries an estimated_monthly_cost obtained by applying the
tiered cost model to the grand-total byte count, and every defined tier
price yields the per-byte price times the byte count rounded to 6
fractional digits. -/
theorem claim_C1 (buckets : List (String × List (Option (List ℕ)))) :
    (usage_report buckets).estimated_monthly_cost = estimate ((s3_usage buckets).total_size : ℤ) ∧
    (∀ (t : ℤ) (p : ℚ), price_per_gb t = some p →
      estimate t = Except.ok (roundTo 6 (p / 1024 ^ 3 * (t : ℚ)))) := by
  constructor
  · rfl
  · intro t p hp
    unfold estimate
    rw [hp]

/-- Claim C1 witness: the estimate applied to the two-container example
with grand total 350 bytes. -/
theorem claim_C1_witness :
    (usage_report [("A", [some [100, 200]]), ("B", [some [50]])]).estimated_monthly_cost =
      estimate ((s3_usage [("A", [some [100, 200]]), ("B", [some [50]])]).total_size : ℤ) ∧
    estimate 350 = Except.ok (roundTo 6 ((23 : ℚ)/1000 / 1024 ^ 3 * ((350 : ℤ) : ℚ))) :=
  ⟨(claim_C1 [("A", [some [100, 200]]), ("B", [some [50]])]).1,
   (claim_C1 []).2 350 ((23 : ℚ)/1000) (by with_unfolding_all rfl)⟩

/-- Claim C2: tier selection of the cost estimate: 0.023 dollars per GB
up to and including 50e12 bytes, 0.022 up to and including 450e12,
0.021 at or above 500e12, each divided by 1024 cubed, multiplied by the
byte count and rounded to 6 fractional digits; byte counts strictly
inside the 450e12 to 500e12 gap signal UnsupportedPricingTier. -/
theorem claim_C2 (b : ℤ) :
    (b ≤ 50000000000000 →
      estimate b = Except.ok (roundTo 6 ((23 : ℚ)/1000 / 1024 ^ 3 * (b : ℚ)))) ∧
    (50000000000000 < b → b ≤ 450000000000000 →
      estimate b = Except.ok (roundTo 6 ((22 : ℚ)/1000 / 1024 ^ 3 * (b : ℚ)))) ∧
    (500000000000000 ≤ b →
      estimate b = Except.ok (roundTo 6 ((21 : ℚ)/1000 / 1024 ^ 3 * (b : ℚ)))) ∧
    (450000000000000 < b → b < 500000000000000 →
      estimate b = Except.error PricingError.UnsupportedPricingTier) := by
  refine ⟨fun h1 => ?_, fun h1 h2 => ?_, fun h1 => ?_, fun h1 h2 => ?_⟩
  · unfold estimate price_per_gb
    rw [if_pos h1]
  · unfold estimate price_per_gb
    rw [if_neg (not_le.mpr h1), if_pos h2]
  · unfold estimate price_per_gb
    rw [if_neg (by omega), if_neg (by omega), if_pos h1]
  · unfold estimate price_per_gb
    rw [if_neg (by omega), if_neg (not_le.mpr h1), if_neg (by omega)]

/-- Claim C2 witness: one byte count in each band and one in the gap. -/
theorem claim_C2_witness :
    estimate 1000 = Except.ok (roundTo 6 ((23 : ℚ)/1000 / 1024 ^ 3 * ((1000 : ℤ) : ℚ))) ∧
    estimate 100000000000000 =
      Except.ok (roundTo 6 ((22 : ℚ)/1000 / 1024 ^ 3 * ((100000000000000 : ℤ) : ℚ))) ∧
    estimate 600000000000000 =
      Except.ok (roundTo 6 ((21 : ℚ)/1000 / 1024 ^ 3 * ((600000000000000 : ℤ) : ℚ))) ∧
    estimate 460000000000000 = Except.error PricingError.UnsupportedPricingTier :=
  ⟨(claim_C2 1000).1 (by decide),
   (claim_C2 100000000000000).2.1 (by decide) (by decide),
   (claim_C2 600000000000000).2.2.1 (by decide),
   (claim_C2 460000000000000).2.2.2 (by decide) (by decide)⟩

/-- Claim C6: total mode reports the sum of the buckets' single cost
amounts rounded to 2 fractional digits. -/
theorem claim_C6 (resultsByTime : List ℚ) :
    cost_explorer_total resultsByTime = roundTo 2 resultsByTime.sum := by
  unfold cost_explorer_total
  rw [foldl_add_eq_sum, zero_add]

/-- Claim C7: the grand total equals the sum of the per-container byte
counts; an empty page (with or without a Contents key) contributes
nothing and does not end the scan of later pages; and the concrete
two-container example yields total 350, 2 objects in A and 50 bytes
in B. -/
theorem claim_C7 (buckets : List (String × List (Option (List ℕ))))
    (pages1 pages2 : List (Option (List ℕ))) :
    ((s3_usage buckets).total_size = (buckets.map (fun b => (bucket_stats b.2).1)).sum) ∧
    (bucket_stats (pages1 ++ none :: pages2) = bucket_stats (pages1 ++ pages2)) ∧
    (bucket_stats (pages1 ++ some [] :: pages2) = bucket_stats (pages1 ++ pages2)) ∧
    ((s3_usage [("A", [some [100, 200]]), ("B", [some [50]])]).total_size = 350) ∧
    (dictGet (s3_usage [("A", [some [100, 200]]), ("B", [some [50]])]).bucket_values "A" =
      some ⟨2, size_converter (300 : ℤ)⟩) ∧
    ((bucket_stats [some [50]]).1 = 50) ∧
    (dictGet (s3_usage [("A", [some [100, 200]]), ("B", [some [50]])]).bucket_values "B" =
      some ⟨1, size_converter (50 : ℤ)⟩) := by
  refine ⟨?_, ?_, ?_, ?_, ?_, ?_, ?_⟩
  · have h := s3_total_aux buckets [] 0
    rw [zero_add] at h
    exact h
  · unfold bucket_stats
    rw [List.foldl_append, List.foldl_append, List.foldl_cons]
    rfl
  · unfold bucket_stats
    rw [List.foldl_append, List.foldl_append, List.foldl_cons]
    rfl
  · with_unfolding_all rfl
  · with_unfolding_all rfl
  · with_unfolding_all rfl
  · with_unfolding_all rfl

/-- Claim C5: breakdown mode: the accumulated dict maps each category to
the sum of its non-zero contributions (zero contributions are skipped and
never create an entry, and skipping never removes an existing category);
entries appear in first-seen order; a never-seen category is absent; and
each final sum is rendered from its 4-digit rounding: kept with its raw
value when the rounding is zero, a bare integer when integral, otherwise
a string with exactly 4 fractional digits. -/
theorem claim_C5 (resultsByTime : List (List (String × ℚ))) :
    ((cost_breakdown resultsByTime).map Prod.fst = firstSeenNonzero resultsByTime.flatten) ∧
    (∀ s : String,
      dictGet (cost_breakdown resultsByTime) s =
        if nonzeroContribs s resultsByTime.flatten = [] then none
        else some (nonzeroContribs s resultsByTime.flatten).sum) ∧
    (breakdown_render resultsByTime =
      (cost_breakdown resultsByTime).map (fun p => (p.1, render_cost p.2))) ∧
    (∀ v : ℚ,
      (roundTo 4 v = 0 → render_cost v = CostCell.zeroRaw (roundTo 4 v) v) ∧
      (roundTo 4 v ≠ 0 → (roundTo 4 v).den = 1 →
        render_cost v = CostCell.intCost (roundTo 4 v).num) ∧
      (roundTo 4 v ≠ 0 → (roundTo 4 v).den ≠ 1 →
        render_cost v = CostCell.strCost (fixed4Str (roundTo 4 v)) ∧
        ∃ intPart fracPart : String,
          fixed4Str (roundTo 4 v) = intPart ++ "." ++ fracPart ∧ fracPart.length = 4)) := by
  have hcb : cost_breakdown resultsByTime = resultsByTime.flatten.foldl pureStep [] := by
    unfold cost_breakdown
    rw [foldl_breakdown_join, breakdown_step_eq_pureStep]
  refine ⟨?_, ?_, rfl, ?_⟩
  · rw [hcb]
    exact pureStep_foldl_keys _ []
  · intro s
    rw [hcb, pureStep_foldl_get]
    rfl
  · intro v
    refine ⟨fun h0 => ?_, fun h0 h1 => ?_, fun h0 h1 => ?_⟩
    · unfold render_cost
      rw [if_pos h0]
    · unfold render_cost
      rw [if_neg h0, if_pos h1]
    · unfold render_cost
      rw [if_neg h0, if_neg h1]
      refine ⟨rfl,
        (if (roundTo 4 v * 10000).num < 0 then "-" else "") ++
          toString ((roundTo 4 v * 10000).num.natAbs / 10000),
        pad4 ((roundTo 4 v * 10000).num.natAbs % 10000), rfl, rfl⟩

/-- Claim C5 witness: a zero contribution for Z creates no entry, the
two non-zero contributions for A sum to 12.5, and 12.5 renders as a
4-fractional-digit string. -/
theorem claim_C5_witness :
    dictGet (cost_breakdown [[("A", (12 : ℚ)), ("Z", 0)], [("A", (1 : ℚ)/2)]]) "A" =
      some ((25 : ℚ)/2) ∧
    dictGet (cost_breakdown [[("A", (12 : ℚ)), ("Z", 0)], [("A", (1 : ℚ)/2)]]) "Z" = none ∧
    render_cost ((25 : ℚ)/2) = CostCell.strCost (fixed4Str (roundTo 4 ((25 : ℚ)/2))) := by
  have h := claim_C5 [[("A", (12 : ℚ)), ("Z", 0)], [("A", (1 : ℚ)/2)]]
  have hr : roundTo 4 ((25 : ℚ)/2) = (25 : ℚ)/2 := by with_unfolding_all rfl
  have hden : ((25 : ℚ)/2).den = 2 := by with_unfolding_all rfl
  refine ⟨?_, ?_, ?_⟩
  · have hA := h.2.1 "A"
    have hc : nonzeroContribs "A"
        ([[("A", (12 : ℚ)), ("Z", 0)], [("A", (1 : ℚ)/2)]]).flatten = [12, (1 : ℚ)/2] := by
      with_unfolding_all rfl
    rw [hA, hc, if_neg (List.cons_ne_nil _ _)]
    norm_num
  · have hZ := h.2.1 "Z"
    have hc : nonzeroContribs "Z"
        ([[("A", (12 : ℚ)), ("Z", 0)], [("A", (1 : ℚ)/2)]]).flatten = ([] : List ℚ) := by
      with_unfolding_all rfl
    rw [hZ, hc, if_pos rfl]
  · exact ((h.2.2.2 ((25 : ℚ)/2)).2.2 (by rw [hr]; norm_num) (by rw [hr, hden]; norm_num)).1

/-- Claim C8: non-positive byte counts format as the literal 0 B; a
positive byte count within the 9-unit table formats as the count divided
by 1024 to the power floor(log_1024), rounded to 2 decimal digits,
followed by a space and the unit at that index. -/
theorem claim_C8 (byte_size : ℤ) :
    (byte_size ≤ 0 → size_converter byte_size = "0 B") ∧
    (0 < byte_size → byte_size < 1024 ^ 9 →
      ∃ i : ℕ, i < 9 ∧ (1024 : ℤ) ^ i ≤ byte_size ∧ byte_size < 1024 ^ (i + 1) ∧
        size_converter byte_size =
          floatRepr2 (roundTo 2 ((byte_size : ℚ) / 1024 ^ i)) ++ " " ++ size_name.getD i "") := by
  constructor
  · intro h
    unfold size_converter
    rw [if_pos h]
  · intro hpos hlt
    have hcast : ((byte_size.toNat : ℤ)) = byte_size := Int.toNat_of_nonneg hpos.le
    have hn0 : byte_size.toNat ≠ 0 := by omega
    have hnlt : byte_size.toNat < 1024 ^ 9 := by
      rw [← hcast] at hlt
      exact_mod_cast hlt
    refine ⟨log1024 byte_size.toNat, ?_, ?_, ?_, ?_⟩
    · rw [log1024_eq]
      by_contra hge
      push_neg at hge
      have hpow : (1024 : ℕ) ^ 9 ≤ 1024 ^ Nat.log 1024 byte_size.toNat :=
        Nat.pow_le_pow_right (by norm_num) hge
      have hle : (1024 : ℕ) ^ Nat.log 1024 byte_size.toNat ≤ byte_size.toNat :=
        Nat.pow_log_le_self 1024 hn0
      omega
    · rw [← hcast, log1024_eq]
      exact_mod_cast Nat.pow_log_le_self 1024 hn0
    · rw [← hcast, log1024_eq]
      exact_mod_cast Nat.lt_pow_succ_log_self (by norm_num) byte_size.toNat
    · unfold size_converter
      rw [if_neg (not_le.mpr hpos)]

/-- Claim C8 witness: the negative input and one in-table positive input. -/
theorem claim_C8_witness :
    size_converter (-5) = "0 B" ∧
    (∃ i : ℕ, i < 9 ∧ (1024 : ℤ) ^ i ≤ 1536 ∧ (1536 : ℤ) < 1024 ^ (i + 1) ∧
      size_converter 1536 =
        floatRepr2 (roundTo 2 (((1536 : ℤ) : ℚ) / 1024 ^ i)) ++ " " ++ size_name.getD i "") :=
  ⟨(claim_C8 (-5)).1 (by decide), (claim_C8 1536).2 (by decide) (by decide)⟩

/-- Claim C9 counterexample: 1024 bytes format as the string 1.0 KB, not
1 KB: the code divides with float semantics and round keeps a float, so
the rendered value carries a trailing .0. -/
theorem claim_C9_counterexample :
    size_converter 1024 = "1.0 KB" ∧ size_converter 1024 ≠ "1 KB" := by
  have h : size_converter 1024 = "1.0 KB" := by with_unfolding_all rfl
  exact ⟨h, by rw [h]; decide⟩

/-- Claim C9 amended: the formatter returns 1.0 KB for 1024, 1.5 KB for
1536 and 1.0 GB for 1073741824. -/
theorem claim_C9_amended :
    size_converter 1024 = "1.0 KB" ∧ size_converter 1536 = "1.5 KB" ∧
      size_converter 1073741824 = "1.0 GB" := by
  refine ⟨?_, ?_, ?_⟩ <;> with_unfolding_all rfl

/-- Claim C10: whenever start_date is omitted, cost_explorer evaluates
end_date - timedelta(days=30) on the raw end_date (None or str) before
end_date is parsed or defaulted, so the call raises TypeError regardless
of end_date. -/
theorem claim_C10 (end_date : Option String) (now : PyDate) :
    cost_explorer_dates none end_date now = Except.error CEErr.typeError := rfl

/-- Claim C3: the code raises TypeError on the documented
missing-start scenario (end 2025-03-31, start omitted), while the
spec-modelled resolution yields start 2025-03-01 and end 2025-03-31 as
the claim states. -/
theorem claim_C3_divergence :
    cost_explorer_dates none (some "2025-03-31") ⟨2025, 10, 12⟩ =
      Except.error CEErr.typeError ∧
    resolve_range none (some "2025-03-31") ⟨2025, 10, 12⟩ =
      Except.ok (⟨2025, 3, 1⟩, ⟨2025, 3, 31⟩) := by
  constructor
  · rfl
  · with_unfolding_all rfl

/-- Claim C4 counterexample: with start 2099-01-02 and end 2099-01-01
(both parsed, end not after start, start after now 2025-10-12) the call
fails with FutureStartDate, not with NonPositiveRange as the claim
requires for every non-positive range. -/
theorem claim_C4_counterexample :
    cost_explorer_dates (some "2099-01-02") (some "2099-01-01") ⟨2025, 10, 12⟩ =
      Except.error CEErr.futureStartDate ∧
    cost_explorer_dates (some "2099-01-02") (some "2099-01-01") ⟨2025, 10, 12⟩ ≠
      Except.error CEErr.nonPositiveRange := by
  have h : cost_explorer_dates (some "2099-01-02") (some "2099-01-01") ⟨2025, 10, 12⟩ =
      Except.error CEErr.futureStartDate := by with_unfolding_all rfl
  refine ⟨h, ?_⟩
  rw [h]
  intro hcontra
  exact CEErr.noConfusion (Except.error.inj hcontra)

/-- Claim C4 amended: after date resolution, the call fails with
FutureStartDate whenever the resolved start is after now; when the
resolved start is not after now the call fails with NonPositiveRange
whenever the resolved end is not strictly after the resolved start (the
start check runs first); otherwise it proceeds with the resolved pair. -/
theorem claim_C4 (start_date end_date : Option String) (now s e : PyDate)
    (hst : truthy start_date = true)
    (hsp : parseDate (start_date.getD "") = some s)
    (hend : (truthy end_date = true ∧ parseDate (end_date.getD "") = some e) ∨
            (truthy end_date = false ∧ e = now)) :
    (dateKey now < dateKey s →
      cost_explorer_dates start_date end_date now = Except.error CEErr.futureStartDate) ∧
    (dateKey s ≤ dateKey now → dateKey e ≤ dateKey s →
      cost_explorer_dates start_date end_date now = Except.error CEErr.nonPositiveRange) ∧
    (dateKey s ≤ dateKey now → dateKey s < dateKey e →
      cost_explorer_dates start_date end_date now = Except.ok (s, e)) := by
  have hresolved : cost_explorer_dates start_date end_date now =
      (if dateKey s ≤ dateKey now then
        if dateKey s < dateKey e then Except.ok (s, e)
        else Except.error CEErr.nonPositiveRange
      else Except.error CEErr.futureStartDate) := by
    unfold cost_explorer_dates
    rw [hst]
    simp only [if_true]
    rw [hsp]
    rcases hend with ⟨he1, he2⟩ | ⟨he1, he2⟩
    · rw [he1]
      simp only [if_true]
      rw [he2]
    · rw [he1]
      simp only [Bool.false_eq_true, if_false]
      rw [he2]
  refine ⟨fun h => ?_, fun h1 h2 => ?_, fun h1 h2 => ?_⟩
  · rw [hresolved, if_neg (not_le.mpr h)]
  · rw [hresolved, if_pos h1, if_neg (not_lt.mpr h2)]
  · rw [hresolved, if_pos h1, if_pos h2]

/-- Claim C4 witness: the two validation scenarios named by the spec,
evaluated against now 2025-10-12. -/
theorem claim_C4_witness :
    cost_explorer_dates (some "2099-01-01") none ⟨2025, 10, 12⟩ =
      Except.error CEErr.futureStartDate ∧
    cost_explorer_dates (some "2025-02-01") (some "2025-01-01") ⟨2025, 10, 12⟩ =
      Except.error CEErr.nonPositiveRange :=
  ⟨(claim_C4 (some "2099-01-01") none ⟨2025, 10, 12⟩ ⟨2099, 1, 1⟩ ⟨2025, 10, 12⟩
      (by with_unfolding_all rfl) (by with_unfolding_all rfl)
      (Or.inr ⟨by with_unfolding_all rfl, rfl⟩)).1 (by decide),
   (claim_C4 (some "2025-02-01") (some "2025-01-01") ⟨2025, 10, 12⟩ ⟨2025, 2, 1⟩ ⟨2025, 1, 1⟩
      (by with_unfolding_all rfl) (by with_unfolding_all rfl)
      (Or.inl ⟨by with_unfolding_all rfl, by with_unfolding_all rfl⟩)).2.1
      (by decide) (by decide)⟩
